import Mathlib

/-!
Verification development for the bank-transaction classification engine
(`bank_converter/core/converter.py`, `reader.py`, `writer.py`, and the
mapping snapshot held by `config/manager.py`).

The Python code is shallowly embedded as executable Lean definitions:

* Python `float` values produced by `parse_amount` are modelled by `PyFloat`:
  a finite value is carried as an exact rational (every finite binary float
  is a rational, and the engine only parses, compares with zero and takes
  absolute values, all of which are exact), plus the special values
  `inf`, `ninf` and `nan` that Python's `float(...)` can return.
* Python dicts are modelled as association lists (`List (String × α)`,
  keys unique in any snapshot produced by the config layer; `List.lookup`
  returns the first binding, matching dict lookup).
* The converter's instance state (`self.unknown_mappings`,
  `self._seen_unknowns`) is threaded explicitly as `ConvState`.
* Python's `sorted` (a stable sort) is modelled by `List.insertionSort`,
  which is stable for the total preorder used here, hence produces the
  same list as any stable sort.
-/

/-! ## Generic character-list helpers (Python string primitives) -/

/-- Python `str.strip(c)`: drop the character `c` from both ends. -/
def stripChar (c : Char) (l : List Char) : List Char :=
  ((l.dropWhile (fun x => x == c)).reverse.dropWhile (fun x => x == c)).reverse

/-- Python `str.replace(a, b)` for single characters. -/
def replaceChar (a b : Char) (l : List Char) : List Char :=
  l.map (fun c => if c == a then b else c)

/-- Python `str.replace(a, '')` for a single character: remove every occurrence. -/
def removeChar (a : Char) (l : List Char) : List Char :=
  l.filter (fun c => !(c == a))

/-- ASCII whitespace recognised by Python's `str.strip()` / `float()` / `int()`. -/
def isPyWs (c : Char) : Bool :=
  c == ' ' || c == Char.ofNat 9 || c == Char.ofNat 10 || c == Char.ofNat 13 ||
  c == Char.ofNat 11 || c == Char.ofNat 12

/-- Python `str.strip()` (restricted to ASCII whitespace). -/
def stripWsL (l : List Char) : List Char :=
  ((l.dropWhile isPyWs).reverse.dropWhile isPyWs).reverse

/-- Python `str.split(c)` for a single-character separator. -/
def splitOnChar (c : Char) : List Char → List (List Char)
  | [] => [[]]
  | x :: xs =>
    if x == c then [] :: splitOnChar c xs
    else
      match splitOnChar c xs with
      | [] => [[x]]
      | h :: t => (x :: h) :: t

/-- Split a list at the first character satisfying `p` (separator dropped). -/
def splitFirstBy (p : Char → Bool) : List Char → Option (List Char × List Char)
  | [] => none
  | c :: rest =>
    if p c then some ([], rest)
    else (splitFirstBy p rest).map (fun pr => (c :: pr.1, pr.2))

/-! ## Model of CPython numeric-string parsing

`validUD` models CPython's `digitpart` (ASCII digits with single underscores
sandwiched between digits), used by both `float(...)` and `int(...)`.
Unicode digits accepted by CPython are outside the model. -/

def validUDAux : List Char → Bool
  | [] => true
  | [c] => c.isDigit
  | c :: d :: rest =>
    if c == '_' then d.isDigit && validUDAux rest
    else c.isDigit && validUDAux (d :: rest)

/-- Nonempty digit group: first character must be a digit. -/
def validUD : List Char → Bool
  | [] => false
  | c :: rest => c.isDigit && validUDAux rest

def stripUnders (l : List Char) : List Char :=
  l.filter (fun c => !(c == '_'))

def natOfDigits (l : List Char) : Nat :=
  l.foldl (fun n c => n * 10 + (c.toNat - 48)) 0

/-- The exact rational value `m * 10 ^ (e - k)` of a float literal with
digit value `m`, `k` fractional digits and exponent `e` (built with `mkRat`
so that it evaluates inside the kernel). -/
def qOfDigits (m : Nat) (k : Nat) (e : Int) : ℚ :=
  let p : Int := e - (k : Int)
  if 0 ≤ p then (((m : Int) * (10 : Int) ^ p.toNat : Int) : ℚ)
  else mkRat (m : Int) ((10 : Nat) ^ (-p).toNat)

/-- Mantissa of a float literal: digits, with an optional single dot.
Returns the digit value (dot erased) and the number of fractional digits. -/
def parseMantissa (l : List Char) : Option (Nat × Nat) :=
  match splitFirstBy (fun c => c == '.') l with
  | none => if validUD l then some (natOfDigits (stripUnders l), 0) else none
  | some (ip, fp) =>
    if (validUD ip || ip.isEmpty) && (validUD fp || fp.isEmpty) &&
       !(ip.isEmpty && fp.isEmpty) then
      some (natOfDigits (stripUnders ip ++ stripUnders fp), (stripUnders fp).length)
    else none

/-- Finite part of CPython `float(str)`: mantissa with optional exponent.
The exact rational value is returned (the rounding of that value to the
nearest binary float, and overflow to infinity, are not modelled: no claim
below depends on them). -/
def floatParseCore (l : List Char) : Option ℚ :=
  match splitFirstBy (fun c => c == 'e' || c == 'E') l with
  | none => (parseMantissa l).map (fun mk => qOfDigits mk.1 mk.2 0)
  | some (mant, ex) =>
    match ex with
    | '+' :: r =>
      if validUD r then
        (parseMantissa mant).map
          (fun mk => qOfDigits mk.1 mk.2 (natOfDigits (stripUnders r) : Int))
      else none
    | '-' :: r =>
      if validUD r then
        (parseMantissa mant).map
          (fun mk => qOfDigits mk.1 mk.2 (-(natOfDigits (stripUnders r) : Int)))
      else none
    | r =>
      if validUD r then
        (parseMantissa mant).map
          (fun mk => qOfDigits mk.1 mk.2 (natOfDigits (stripUnders r) : Int))
      else none

/-- Python float values reachable through `float(str)`. -/
inductive PyFloat where
  | num (q : ℚ)
  | inf
  | ninf
  | nan
deriving DecidableEq, Repr

/-- Python `x == 0` for a float `x` (`nan == 0` is false, as in IEEE). -/
def PyFloat.eqZero : PyFloat → Bool
  | .num q => decide (q = 0)
  | _ => false

/-- Python `x > 0` (`nan > 0` is false). -/
def PyFloat.gtZero : PyFloat → Bool
  | .num q => decide (0 < q)
  | .inf => true
  | _ => false

/-- Python `x < 0` (`nan < 0` is false). -/
def PyFloat.ltZero : PyFloat → Bool
  | .num q => decide (q < 0)
  | .ninf => true
  | _ => false

/-- Python `abs(x)` (`abs(nan)` is `nan`). -/
def PyFloat.pabs : PyFloat → PyFloat
  | .num q => .num |q|
  | .inf => .inf
  | .ninf => .inf
  | .nan => .nan

/-- The part of `pyFloatOfChars` after the optional sign: the special
spellings `inf`, `infinity` and `nan` (case-insensitive, sign of a nan is
invisible to the engine), otherwise a numeral. -/
def pyFloatSigned (neg : Bool) (r : List Char) : Option PyFloat :=
  let low := r.map Char.toLower
  if low = "inf".data ∨ low = "infinity".data then
    some (if neg then PyFloat.ninf else PyFloat.inf)
  else if low = "nan".data then some PyFloat.nan
  else (floatParseCore r).map (fun q => PyFloat.num (if neg then -q else q))

/-- CPython `float(str)`: surrounding whitespace, optional sign, then either
a special spelling or a numeral.  `none` models `ValueError`. -/
def pyFloatOfChars (l : List Char) : Option PyFloat :=
  match stripWsL l with
  | '+' :: r => pyFloatSigned false r
  | '-' :: r => pyFloatSigned true r
  | r => pyFloatSigned false r

/-- CPython `int(str)`: surrounding whitespace, optional sign, digit group.
`none` models `ValueError`. -/
def pyIntOfChars (l : List Char) : Option Int :=
  match stripWsL l with
  | '+' :: r => if validUD r then some (natOfDigits (stripUnders r) : Int) else none
  | '-' :: r => if validUD r then some (-(natOfDigits (stripUnders r) : Int)) else none
  | r => if validUD r then some (natOfDigits (stripUnders r) : Int) else none

def pyIntOfString (s : String) : Option Int := pyIntOfChars s.data

/-! ## `reader.py` module-level functions -/

/-- The cleaning chain of `parse_amount`:
`str(s).strip(QUOTE).replace(COMMA, DOT).replace(SPACE, '')` followed by
removing the non-breaking space `\xa0`. -/
def clean_amount (s : String) : List Char :=
  removeChar (Char.ofNat 160) (removeChar ' ' (replaceChar ',' '.' (stripChar '"' s.data)))

/-- `reader.parse_amount`: empty input yields `0.0`; otherwise clean the
string and call `float(...)`, returning `0.0` on `ValueError`. -/
def parse_amount (s : String) : PyFloat :=
  if s = "" then PyFloat.num 0
  else
    match pyFloatOfChars (clean_amount s) with
    | some v => v
    | none => PyFloat.num 0

/-- `reader.parse_date`: normalize a date string to `DD.MM.YYYY` best-effort
(empty stays empty, time suffix dropped at the first space, `YYYY-MM-DD`
reordered, anything else returned unchanged). -/
def parse_date (date_str : String) : String :=
  if date_str = "" then ""
  else
    let l0 := stripChar '"' (stripWsL date_str.data)
    let l1 := if l0.contains ' ' then (splitOnChar ' ' l0).headD [] else l0
    if l1.contains '-' then
      match splitOnChar '-' l1 with
      | [yyyy, mm, dd] => String.mk (dd ++ '.' :: mm ++ '.' :: yyyy)
      | _ => String.mk l1
    else String.mk l1

/-! ## `models.py` data model -/

inductive TransactionType where
  | income
  | expense
  | skip
deriving DecidableEq, Repr

/-- `models.BankTransaction`: one raw row of the bank export. -/
structure BankTransaction where
  operation_date : String
  payment_date : String
  card_number : String
  status : String
  amount : String
  currency : String
  category : String
  mcc : String
  description : String
deriving DecidableEq, Repr

/-- `models.BudgetTransaction`: one normalized output row. -/
structure BudgetTransaction where
  owner : String
  date : String
  amount : PyFloat
  purpose : String
  tag : String
  comment : String
  transaction_type : TransactionType
deriving DecidableEq, Repr

/-- `models.UnknownMapping`: an unresolved (category or vendor) key.
Its identity for deduplication is the pair `(mapping_type, original_value)`. -/
structure UnknownMapping where
  mapping_type : String
  original_value : String
  suggested_tag : String
  suggested_purpose : String
deriving DecidableEq, Repr

/-- One value of the `vendor_overrides` dict: the `tag` key is always
present; the purpose key `НАЗНАЧЕНИЕ` may be absent, which the code reads
with `dict.get(key, default)`. `none` models the absent key. -/
structure VendorOverride where
  tag : String
  naznachenie : Option String
deriving DecidableEq, Repr

/-- Snapshot of `ConfigManager` as read by the converter (dicts as
association lists with unique keys). -/
structure ConfigManager where
  owner : String
  output_tags : List String
  category_mappings : List (String × String)
  vendor_overrides : List (String × VendorOverride)
  skip_descriptions : List String
  income_categories : List String
deriving DecidableEq, Repr

/-- The converter instance state: `self.unknown_mappings` and
`self._seen_unknowns` (the Python set is modelled by a list, only
membership is ever used). -/
structure ConvState where
  unknown_mappings : List UnknownMapping
  seen : List (String × String)
deriving DecidableEq, Repr

/-! ## `converter.py` BankConverter -/

/-- The `UnknownMapping` appended for an unmapped category. -/
def cat_entry (category : String) : UnknownMapping :=
  ⟨"category", category, "Неизвестно", ""⟩

/-- The `UnknownMapping` appended for an unmapped transfer vendor. -/
def vendor_entry (description : String) : UnknownMapping :=
  ⟨"vendor", description, "Неизвестно", description⟩

/-- `BankConverter._add_unknown`: record an unmapped category, and for the
transfer category `Переводы` also the vendor, each deduplicated against
`_seen_unknowns`. -/
def add_unknown (cfg : ConfigManager) (st : ConvState)
    (category description : String) : ConvState :=
  let st1 :=
    if category ≠ "" ∧ List.lookup category cfg.category_mappings = none then
      if ("category", category) ∈ st.seen then st
      else ⟨st.unknown_mappings ++ [cat_entry category], ("category", category) :: st.seen⟩
    else st
  if category = "Переводы" then
    if description ≠ "" ∧ List.lookup description cfg.vendor_overrides = none then
      if ("vendor", description) ∈ st1.seen then st1
      else ⟨st1.unknown_mappings ++ [vendor_entry description], ("vendor", description) :: st1.seen⟩
    else st1
  else st1

/-- `BankConverter._get_mapping`: vendor override first (purpose read with
`dict.get(НАЗНАЧЕНИЕ, description)`), then category mapping, else the
sentinel tag plus a recorded unknown. -/
def get_mapping (cfg : ConfigManager) (st : ConvState)
    (category description : String) : ConvState × String × String :=
  match List.lookup description cfg.vendor_overrides with
  | some o => (st, o.tag, o.naznachenie.getD description)
  | none =>
    match List.lookup category cfg.category_mappings with
    | some tag => (st, tag, description)
    | none => (add_unknown cfg st category description, "Неизвестно", description)

/-- `BankConverter._determine_type`. -/
def determine_type (cfg : ConfigManager) (amount : PyFloat)
    (category : String) : TransactionType :=
  if category ∈ cfg.income_categories then .income
  else if amount.gtZero then .income
  else if amount.ltZero then .expense
  else .skip

/-- `BankConverter._convert_single`: the per-transaction pipeline, returning
the updated instance state and the emitted row (or `none` when dropped). -/
def convert_single (cfg : ConfigManager) (st : ConvState)
    (tx : BankTransaction) : ConvState × Option BudgetTransaction :=
  if tx.status ≠ "OK" then (st, none)
  else if tx.description ∈ cfg.skip_descriptions then (st, none)
  else if (parse_amount tx.amount).eqZero then (st, none)
  else if determine_type cfg (parse_amount tx.amount) tx.category = TransactionType.skip then (st, none)
  else
    ((get_mapping cfg st tx.category tx.description).1,
     some { owner := cfg.owner
            date := parse_date tx.operation_date
            amount := (parse_amount tx.amount).pabs
            purpose := (get_mapping cfg st tx.category tx.description).2.2
            tag := (get_mapping cfg st tx.category tx.description).2.1
            comment := ""
            transaction_type := determine_type cfg (parse_amount tx.amount) tx.category })

/-- The loop body of `BankConverter.convert`. -/
def convertGo (cfg : ConfigManager) : ConvState → List BankTransaction →
    ConvState × List BudgetTransaction
  | st, [] => (st, [])
  | st, tx :: rest =>
    let p := convert_single cfg st tx
    let r := convertGo cfg p.1 rest
    (r.1, match p.2 with | some b => b :: r.2 | none => r.2)

/-- `BankConverter.convert`: resets the instance state, processes the list
top-to-bottom, and returns (results, unknown mappings) together with the
instance state left behind for the next call. -/
def convert (st : ConvState) (cfg : ConfigManager) (txs : List BankTransaction) :
    (List BudgetTransaction × List UnknownMapping) × ConvState :=
  let r := convertGo cfg ⟨[], []⟩ txs
  ((r.2, r.1.unknown_mappings), r.1)

/-! ## `writer.py` BudgetWriter -/

/-- `BudgetWriter._parse_date_for_sort`: structural `(year, month, day)`
key from a `DD.MM.YYYY` string; `(0,0,0)` when the string is empty, does
not have exactly three dot-separated parts, or a part fails `int(...)`. -/
def parse_date_for_sort (date_str : String) : Int × Int × Int :=
  if date_str = "" then (0, 0, 0)
  else
    match splitOnChar '.' date_str.data with
    | [d, m, y] =>
      match pyIntOfChars y, pyIntOfChars m, pyIntOfChars d with
      | some yi, some mi, some di => (yi, mi, di)
      | _, _, _ => (0, 0, 0)
    | _ => (0, 0, 0)

/-- Lexicographic comparison of `(year, month, day)` keys: Python tuple `<=`. -/
def keyLE (a b : Int × Int × Int) : Bool :=
  decide (a.1 < b.1 ∨ (a.1 = b.1 ∧ (a.2.1 < b.2.1 ∨ (a.2.1 = b.2.1 ∧ a.2.2 ≤ b.2.2))))

/-- The sort order used by `_write_section`: ascending by structural date key. -/
def byDateLE (a b : BudgetTransaction) : Prop :=
  keyLE (parse_date_for_sort a.date) (parse_date_for_sort b.date) = true

instance : DecidableRel byDateLE := by
  intro a b
  unfold byDateLE
  infer_instance

/-- `sorted(transactions, key=...)` of `_write_section`: a stable sort by
the structural date key (insertion sort is stable, like Python's sort). -/
def sort_by_date (l : List BudgetTransaction) : List BudgetTransaction :=
  List.insertionSort byDateLE l

/-- The income section contents of `BudgetWriter.write`. -/
def income_bucket (txs : List BudgetTransaction) : List BudgetTransaction :=
  txs.filter (fun tx => decide (tx.transaction_type = TransactionType.income))

/-- The expense section contents of `BudgetWriter.write`. -/
def expense_bucket (txs : List BudgetTransaction) : List BudgetTransaction :=
  txs.filter (fun tx => decide (tx.transaction_type = TransactionType.expense))

/-- Digit character: `digitCharOf n` is the ASCII digit for `n < 10`. -/
def digitCharOf (n : Nat) : Char := Char.ofNat (48 + n)

/-- Decimal digits of a natural number, fuel-based so it reduces in the
kernel; models Python `str(n)` for `n ≥ 0`. -/
def natCharsAux : Nat → Nat → List Char → List Char
  | 0, _, acc => acc
  | fuel + 1, n, acc =>
    if n < 10 then digitCharOf n :: acc
    else natCharsAux fuel (n / 10) (digitCharOf (n % 10) :: acc)

def natChars (n : Nat) : List Char := natCharsAux (n + 1) n []

/-- Python `str(i)` for an `int`. -/
def intChars (i : Int) : List Char :=
  if i < 0 then '-' :: natChars i.natAbs else natChars i.toNat

/-- Python `int(x)` on a finite float value: truncation toward zero. -/
def pyTrunc (q : ℚ) : Int :=
  if 0 ≤ q.num then ((q.num.toNat / q.den : Nat) : Int)
  else -((q.num.natAbs / q.den : Nat) : Int)

/-- Round half to even of `100 * q` as an integer number of cents: the
rounding performed by `format(x, '.2f')`, applied to the exact value.
Computed on numerator and denominator directly (`f` is the floor of
`100 * q`, `twice` is `2 * den * (100 * q - f)`). -/
def round_cents (q : ℚ) : Int :=
  let n := 100 * q.num
  let d := (q.den : Int)
  let f := n.fdiv d
  let twice := 2 * (n - f * d)
  if twice < d then f
  else if d < twice then f + 1
  else if f % 2 = 0 then f else f + 1

/-- The characters of `f-string {amount:.2f}`. -/
def fixed2Chars (q : ℚ) : List Char :=
  let m := (round_cents q).natAbs
  (if q < 0 then ['-'] else []) ++
    natChars (m / 100) ++ '.' :: digitCharOf (m / 10 % 10) :: [digitCharOf (m % 10)]

/-- `BudgetWriter._format_amount`: bare integer when `amount == int(amount)`,
else two decimals with the dot replaced by a comma. -/
def format_amount (q : ℚ) : String :=
  if q = ((pyTrunc q : Int) : ℚ) then String.mk (intChars (pyTrunc q))
  else String.mk (replaceChar '.' ',' (fixed2Chars q))

/-! ## Specification-side definitions (used to state the claims) -/

/-- The pure (tag, purpose) resolution of `_get_mapping`, without the
unknown-recording side effect. -/
def get_mapping_result (cfg : ConfigManager) (category description : String) :
    String × String :=
  match List.lookup description cfg.vendor_overrides with
  | some o => (o.tag, o.naznachenie.getD description)
  | none =>
    match List.lookup category cfg.category_mappings with
    | some tag => (tag, description)
    | none => ("Неизвестно", description)

/-- The pure per-transaction result of `_convert_single` (the emitted row
does not depend on the instance state). -/
def convert_single_result (cfg : ConfigManager) (tx : BankTransaction) :
    Option BudgetTransaction :=
  if tx.status ≠ "OK" then none
  else if tx.description ∈ cfg.skip_descriptions then none
  else if (parse_amount tx.amount).eqZero then none
  else if determine_type cfg (parse_amount tx.amount) tx.category = TransactionType.skip then none
  else
    some { owner := cfg.owner
           date := parse_date tx.operation_date
           amount := (parse_amount tx.amount).pabs
           purpose := (get_mapping_result cfg tx.category tx.description).2
           tag := (get_mapping_result cfg tx.category tx.description).1
           comment := ""
           transaction_type := determine_type cfg (parse_amount tx.amount) tx.category }

/-- A transaction reaches the unknown-recording step of the pipeline:
kept by the status, skip-list, zero-amount and skip-type guards, and both
mapping lookups fail. -/
def reaches_unknown (cfg : ConfigManager) (tx : BankTransaction) : Prop :=
  tx.status = "OK" ∧ tx.description ∉ cfg.skip_descriptions ∧
  (parse_amount tx.amount).eqZero = false ∧
  determine_type cfg (parse_amount tx.amount) tx.category ≠ TransactionType.skip ∧
  List.lookup tx.description cfg.vendor_overrides = none ∧
  List.lookup tx.category cfg.category_mappings = none

instance (cfg : ConfigManager) (tx : BankTransaction) :
    Decidable (reaches_unknown cfg tx) := by
  unfold reaches_unknown
  infer_instance

/-- The entries `_add_unknown` would append for a transaction, ignoring the
duplicate-suppression set: the category entry first, then (for the transfer
category) the vendor entry. -/
def tx_contrib (cfg : ConfigManager) (tx : BankTransaction) : List UnknownMapping :=
  (if tx.category ≠ "" ∧ List.lookup tx.category cfg.category_mappings = none then
    [cat_entry tx.category]
   else []) ++
  (if tx.category = "Переводы" ∧ tx.description ≠ "" ∧
      List.lookup tx.description cfg.vendor_overrides = none then
    [vendor_entry tx.description]
   else [])

/-- The stream of would-be unknown entries, in processing order. -/
def unknown_stream (cfg : ConfigManager) : List BankTransaction → List UnknownMapping
  | [] => []
  | tx :: rest =>
    (if reaches_unknown cfg tx then tx_contrib cfg tx else []) ++ unknown_stream cfg rest

/-- The deduplication identity of an `UnknownMapping`. -/
def mapping_key (u : UnknownMapping) : String × String :=
  (u.mapping_type, u.original_value)

/-- Keep the first occurrence of each `(mapping_type, original_value)` key,
in stream order, skipping keys already in `seen`. -/
def dedupFirst : List UnknownMapping → List (String × String) → List UnknownMapping
  | [], _ => []
  | u :: rest, seen =>
    if mapping_key u ∈ seen then dedupFirst rest seen
    else u :: dedupFirst rest (mapping_key u :: seen)

/-- One deduplication step on the converter state. -/
def dedupStep (st : ConvState) (u : UnknownMapping) : ConvState :=
  if mapping_key u ∈ st.seen then st
  else ⟨st.unknown_mappings ++ [u], mapping_key u :: st.seen⟩

/-- Run deduplication steps over a stream of entries. -/
def dedupRun : ConvState → List UnknownMapping → ConvState
  | st, [] => st
  | st, u :: rest => dedupRun (dedupStep st u) rest

/-- Whether a date string parses as three dot-separated `int(...)` parts. -/
def parses_as_three (s : String) : Bool :=
  match splitOnChar '.' s.data with
  | [d, m, y] => (pyIntOfChars d).isSome && (pyIntOfChars m).isSome && (pyIntOfChars y).isSome
  | _ => false

/-! ## Concrete fixtures used by witnesses and counterexamples -/

/-- A raw row with the five classification-relevant fields set. -/
def mkTx (status amount category description date : String) : BankTransaction :=
  ⟨date, "", "", status, amount, "", category, "", description⟩

/-- A snapshot with no mappings at all. -/
def cfgEmpty : ConfigManager := ⟨"o", [], [], [], [], []⟩

/-- A snapshot where `Зарплата` is an income category. -/
def cfgIncome : ConfigManager := ⟨"o", [], [], [], [], ["Зарплата"]⟩

/-- A snapshot whose single vendor override stores the empty string as its
purpose (the purpose key is present but empty). -/
def cfgOverrideEmptyPurpose : ConfigManager :=
  ⟨"o", [], [], [("D", ⟨"T", some ""⟩)], [], []⟩

/-- A snapshot with both a category mapping for `C` and a vendor override
for `D`. -/
def cfgVendor : ConfigManager :=
  ⟨"o", [], [("C", "T")], [("D", ⟨"T2", some "P"⟩)], [], []⟩

/-- A snapshot with a vendor override for `D` and no category mappings. -/
def cfgVendorOnly : ConfigManager :=
  ⟨"o", [], [], [("D", ⟨"T", some "P"⟩)], [], []⟩

/-- An expense row whose date does not parse. -/
def bGar : BudgetTransaction := ⟨"o", "garbage", PyFloat.num 1, "p", "t", "", .expense⟩

/-- An expense row whose date parses with a negative year. -/
def bNeg : BudgetTransaction := ⟨"o", "01.01.-1", PyFloat.num 1, "p", "t", "", .expense⟩

/-! ## Helper lemmas about the converter -/

/-- The (tag, purpose) component of `_get_mapping` is the pure resolution. -/
theorem get_mapping_snd (cfg : ConfigManager) (st : ConvState) (c d : String) :
    (get_mapping cfg st c d).2 = get_mapping_result cfg c d := by
  unfold get_mapping get_mapping_result
  cases h : List.lookup d cfg.vendor_overrides with
  | some o => rfl
  | none =>
    cases h2 : List.lookup c cfg.category_mappings with
    | some t => rfl
    | none => rfl

/-- The emitted row of `_convert_single` does not depend on the state. -/
theorem convert_single_snd (cfg : ConfigManager) (st : ConvState) (tx : BankTransaction) :
    (convert_single cfg st tx).2 = convert_single_result cfg tx := by
  unfold convert_single convert_single_result
  split_ifs
  · rfl
  · rfl
  · rfl
  · rfl
  · rw [get_mapping_snd]

/-- The emitted rows of the conversion loop form a `filterMap`. -/
theorem convertGo_results (cfg : ConfigManager) :
    ∀ (txs : List BankTransaction) (st : ConvState),
      (convertGo cfg st txs).2 = txs.filterMap (convert_single_result cfg) := by
  intro txs
  induction txs with
  | nil => intro st; rfl
  | cons tx rest ih =>
    intro st
    simp only [convertGo, List.filterMap_cons, ih, convert_single_snd]
    cases convert_single_result cfg tx <;> rfl

/-- Running deduplication over an appended stream. -/
theorem dedupRun_append (l1 l2 : List UnknownMapping) :
    ∀ st : ConvState, dedupRun st (l1 ++ l2) = dedupRun (dedupRun st l1) l2 := by
  induction l1 with
  | nil => intro st; rfl
  | cons u rest ih =>
    intro st
    simp only [List.cons_append, dedupRun]
    exact ih (dedupStep st u)

/-- The recorded list of a deduplication run. -/
theorem dedupRun_unknowns (l : List UnknownMapping) :
    ∀ st : ConvState,
      (dedupRun st l).unknown_mappings = st.unknown_mappings ++ dedupFirst l st.seen := by
  induction l with
  | nil => intro st; simp [dedupRun, dedupFirst]
  | cons u rest ih =>
    intro st
    simp only [dedupRun, dedupStep, dedupFirst]
    split_ifs with h
    · exact ih st
    · rw [ih ⟨st.unknown_mappings ++ [u], mapping_key u :: st.seen⟩]
      simp

/-- `_add_unknown` is a deduplication run over its would-be entries. -/
theorem add_unknown_eq (cfg : ConfigManager) (st : ConvState) (c d : String) :
    add_unknown cfg st c d =
      dedupRun st
        ((if c ≠ "" ∧ List.lookup c cfg.category_mappings = none then [cat_entry c] else []) ++
         (if c = "Переводы" ∧ d ≠ "" ∧ List.lookup d cfg.vendor_overrides = none then
           [vendor_entry d] else [])) := by
  unfold add_unknown
  by_cases h1 : c ≠ "" ∧ List.lookup c cfg.category_mappings = none
  · by_cases h2 : c = "Переводы"
    · by_cases h3 : d ≠ "" ∧ List.lookup d cfg.vendor_overrides = none
      · simp only [if_pos h1, if_pos h2, if_pos h3, if_pos (And.intro h2 h3),
          List.singleton_append, dedupRun, dedupStep, cat_entry, vendor_entry, mapping_key]
      · have : ¬(c = "Переводы" ∧ d ≠ "" ∧ List.lookup d cfg.vendor_overrides = none) := by
          intro hx; exact h3 hx.2
        simp only [if_pos h1, if_pos h2, if_neg h3, if_neg this,
          List.append_nil, dedupRun, dedupStep, cat_entry, mapping_key]
    · have : ¬(c = "Переводы" ∧ d ≠ "" ∧ List.lookup d cfg.vendor_overrides = none) := by
        intro hx; exact h2 hx.1
      simp only [if_pos h1, if_neg h2, if_neg this,
        List.append_nil, dedupRun, dedupStep, cat_entry, mapping_key]
  · by_cases h2 : c = "Переводы"
    · by_cases h3 : d ≠ "" ∧ List.lookup d cfg.vendor_overrides = none
      · simp only [if_neg h1, if_pos h2, if_pos h3, if_pos (And.intro h2 h3),
          List.nil_append, dedupRun, dedupStep, vendor_entry, mapping_key]
      · have : ¬(c = "Переводы" ∧ d ≠ "" ∧ List.lookup d cfg.vendor_overrides = none) := by
          intro hx; exact h3 hx.2
        simp only [if_neg h1, if_pos h2, if_neg h3, if_neg this, List.nil_append, dedupRun]
    · have : ¬(c = "Переводы" ∧ d ≠ "" ∧ List.lookup d cfg.vendor_overrides = none) := by
        intro hx; exact h2 hx.1
      simp only [if_neg h1, if_neg h2, if_neg this, List.nil_append, dedupRun]

/-- The state effect of `_convert_single`: a deduplication run over the
transaction's would-be unknown entries when the transaction reaches the
unknown-recording step, and no change otherwise. -/
theorem convert_single_state (cfg : ConfigManager) (st : ConvState) (tx : BankTransaction) :
    (convert_single cfg st tx).1 =
      dedupRun st (if reaches_unknown cfg tx then tx_contrib cfg tx else []) := by
  by_cases hr : reaches_unknown cfg tx
  · rw [if_pos hr]
    obtain ⟨hst, hskip, hzero, htype, hov, hcm⟩ := hr
    unfold convert_single
    rw [if_neg (by simp [hst] : ¬ tx.status ≠ "OK")]
    rw [if_neg hskip]
    rw [if_neg (by rw [hzero]; simp : ¬ (parse_amount tx.amount).eqZero = true)]
    rw [if_neg htype]
    show (get_mapping cfg st tx.category tx.description).1 = _
    unfold get_mapping
    simp only [hov, hcm]
    rw [add_unknown_eq]
    rfl
  · rw [if_neg hr]
    show (convert_single cfg st tx).1 = st
    unfold convert_single
    split_ifs with h1 h2 h3 h4
    · rfl
    · rfl
    · rfl
    · rfl
    · show (get_mapping cfg st tx.category tx.description).1 = st
      unfold get_mapping
      cases hov : List.lookup tx.description cfg.vendor_overrides with
      | some o => rfl
      | none =>
        cases hcm : List.lookup tx.category cfg.category_mappings with
        | some t => rfl
        | none =>
          exfalso
          apply hr
          refine ⟨?_, h2, ?_, h4, hov, hcm⟩
          · by_contra hne; exact h1 hne
          · revert h3; cases (parse_amount tx.amount).eqZero <;> simp

/-- The state of the conversion loop is a deduplication run over the
stream of would-be unknown entries. -/
theorem convertGo_state (cfg : ConfigManager) :
    ∀ (txs : List BankTransaction) (st : ConvState),
      (convertGo cfg st txs).1 = dedupRun st (unknown_stream cfg txs) := by
  intro txs
  induction txs with
  | nil => intro st; rfl
  | cons tx rest ih =>
    intro st
    simp only [convertGo, unknown_stream]
    rw [dedupRun_append, ih, convert_single_state]

/-- The unresolved list returned by `convert`. -/
theorem convert_unknowns (st : ConvState) (cfg : ConfigManager) (txs : List BankTransaction) :
    (convert st cfg txs).1.2 = dedupFirst (unknown_stream cfg txs) [] := by
  show (convertGo cfg ⟨[], []⟩ txs).1.unknown_mappings = _
  rw [convertGo_state, dedupRun_unknowns]
  rfl

/-- Entries produced by deduplication have keys outside the seen set. -/
theorem mem_dedupFirst_not_seen :
    ∀ (l : List UnknownMapping) (seen : List (String × String)) (u : UnknownMapping),
      u ∈ dedupFirst l seen → mapping_key u ∉ seen := by
  intro l
  induction l with
  | nil => intro seen u h; simp [dedupFirst] at h
  | cons v rest ih =>
    intro seen u h
    simp only [dedupFirst] at h
    split_ifs at h with hv
    · exact ih seen u h
    · rcases List.mem_cons.mp h with h | h
      · rw [h]; exact hv
      · have := ih (mapping_key v :: seen) u h
        intro hu; exact this (List.mem_cons_of_mem _ hu)

/-- Deduplicated entries have pairwise distinct keys. -/
theorem dedupFirst_pairwise :
    ∀ (l : List UnknownMapping) (seen : List (String × String)),
      (dedupFirst l seen).Pairwise (fun u v => mapping_key u ≠ mapping_key v) := by
  intro l
  induction l with
  | nil => intro seen; simp [dedupFirst]
  | cons v rest ih =>
    intro seen
    simp only [dedupFirst]
    split_ifs with hv
    · exact ih seen
    · refine List.Pairwise.cons ?_ (ih _)
      intro u hu
      have := mem_dedupFirst_not_seen rest (mapping_key v :: seen) u hu
      intro he; exact this (by rw [← he]; exact List.mem_cons_self _ _)

/-- No entry with a seen key is ever produced. -/
theorem dedupFirst_countP_seen :
    ∀ (l : List UnknownMapping) (seen : List (String × String)) (k : String × String),
      k ∈ seen →
      (dedupFirst l seen).countP (fun u => decide (mapping_key u = k)) = 0 := by
  intro l
  induction l with
  | nil => intro seen k hk; simp [dedupFirst]
  | cons v rest ih =>
    intro seen k hk
    simp only [dedupFirst]
    split_ifs with hv
    · exact ih seen k hk
    · rw [List.countP_cons]
      have hne : mapping_key v ≠ k := fun he => hv (by rw [he]; exact hk)
      rw [ih (mapping_key v :: seen) k (List.mem_cons_of_mem _ hk)]
      simp [hne]

/-- A key occurring in the stream and not yet seen is produced exactly once. -/
theorem dedupFirst_countP_one :
    ∀ (l : List UnknownMapping) (seen : List (String × String)) (k : String × String),
      k ∉ seen → (∃ u ∈ l, mapping_key u = k) →
      (dedupFirst l seen).countP (fun u => decide (mapping_key u = k)) = 1 := by
  intro l
  induction l with
  | nil => intro seen k hk hex; simp at hex
  | cons v rest ih =>
    intro seen k hk hex
    simp only [dedupFirst]
    by_cases hvk : mapping_key v = k
    · have hv : mapping_key v ∉ seen := by rw [hvk]; exact hk
      rw [if_neg hv, List.countP_cons]
      simp only [hvk]
      rw [dedupFirst_countP_seen rest (k :: seen) k (List.mem_cons_self _ _)]
      simp
    · have hex' : ∃ u ∈ rest, mapping_key u = k := by
        rcases hex with ⟨u, hu, hk2⟩
        rcases List.mem_cons.mp hu with h | h
        · exact absurd (by rw [← h]; exact hk2) hvk
        · exact ⟨u, h, hk2⟩
      split_ifs with hv
      · exact ih seen k hk hex'
      · rw [List.countP_cons]
        simp only [hvk, if_neg hvk]
        rw [ih (mapping_key v :: seen) k ?_ hex']
        · simp [hvk]
        · intro hx
          rcases List.mem_cons.mp hx with h | h
          · exact hvk h.symm
          · exact hk h

/-- A reaching transaction with a nonempty category contributes its
category entry to the unknown stream. -/
theorem cat_entry_mem_stream (cfg : ConfigManager) :
    ∀ (txs : List BankTransaction) (tx : BankTransaction),
      tx ∈ txs → reaches_unknown cfg tx → tx.category ≠ "" →
      cat_entry tx.category ∈ unknown_stream cfg txs := by
  intro txs
  induction txs with
  | nil => intro tx h; simp at h
  | cons hd rest ih =>
    intro tx hmem hr hne
    simp only [unknown_stream]
    rcases List.mem_cons.mp hmem with h | h
    · subst h
      apply List.mem_append_left
      rw [if_pos hr]
      unfold tx_contrib
      apply List.mem_append_left
      rw [if_pos ⟨hne, hr.2.2.2.2.2⟩]
      exact List.mem_singleton_self _
    · exact List.mem_append_right _ (ih tx h hr hne)

/-! ## Claims -/

/-- C1 (amended): for every transaction whose description has a vendor
override, the resolved tag is the override's tag, and the resolved purpose
is the override's stored purpose whenever the purpose key is present (even
when it is the empty string), falling back to the transaction's description
only when the purpose key is absent. -/
theorem claim_C1 :
    ∀ (cfg : ConfigManager) (st : ConvState) (category description : String)
      (o : VendorOverride),
      List.lookup description cfg.vendor_overrides = some o →
      get_mapping cfg st category description = (st, o.tag, o.naznachenie.getD description) ∧
      (∀ p, o.naznachenie = some p →
        get_mapping cfg st category description = (st, o.tag, p)) ∧
      (o.naznachenie = none →
        get_mapping cfg st category description = (st, o.tag, description)) := by
  intro cfg st c d o h
  refine ⟨?_, ?_, ?_⟩
  · unfold get_mapping; simp only [h]
  · intro p hp; unfold get_mapping; simp only [h, hp, Option.getD_some]
  · intro hp; unfold get_mapping; simp only [h, hp, Option.getD_none]

/-- C1 counterexample: an override whose stored purpose is the empty string
resolves to the empty string as purpose, not to the description `D` that
the claim demands, and the emitted transaction carries that empty purpose. -/
theorem claim_C1_counterexample :
    List.lookup "D" cfgOverrideEmptyPurpose.vendor_overrides = some ⟨"T", some ""⟩ ∧
    (get_mapping cfgOverrideEmptyPurpose ⟨[], []⟩ "C" "D").2.2 = "" ∧
    (convert ⟨[], []⟩ cfgOverrideEmptyPurpose [mkTx "OK" "5" "C" "D" "x"]).1.1 =
      [⟨"o", "x", PyFloat.num 5, "", "T", "", TransactionType.income⟩] ∧
    ("" : String) ≠ "D" := by
  refine ⟨by decide, by decide, by decide, by decide⟩

/-- C1 witness: the amended theorem applied to a concrete override with a
present, nonempty purpose. -/
theorem claim_C1_witness :
    get_mapping cfgVendor ⟨[], []⟩ "C" "D" = (⟨[], []⟩, "T2", "P") :=
  (claim_C1 cfgVendor ⟨[], []⟩ "C" "D" ⟨"T2", some "P"⟩ (by decide)).2.1 "P" rfl

/-- C4 (confirmed): when a transaction's description has a vendor override
and its category has a category mapping, the resolved tag — and the tag of
the emitted transaction — is the override's tag, not the category
mapping's. -/
theorem claim_C4 :
    ∀ (cfg : ConfigManager) (st : ConvState) (tx : BankTransaction)
      (o : VendorOverride) (t : String) (b : BudgetTransaction),
      List.lookup tx.description cfg.vendor_overrides = some o →
      List.lookup tx.category cfg.category_mappings = some t →
      (get_mapping_result cfg tx.category tx.description).1 = o.tag ∧
      ((convert_single cfg st tx).2 = some b → b.tag = o.tag) := by
  intro cfg st tx o t b h1 h2
  constructor
  · unfold get_mapping_result; simp only [h1]
  · intro hb
    rw [convert_single_snd] at hb
    unfold convert_single_result at hb
    split_ifs at hb
    cases hb
    unfold get_mapping_result
    simp only [h1]

/-- C4 witness: vendor precedence at a concrete store where both a vendor
override (tag `T2`) and a category mapping (tag `T`) apply. -/
theorem claim_C4_witness :
    (get_mapping_result cfgVendor "C" "D").1 = "T2" ∧
    (⟨"o", "x", PyFloat.num 5, "P", "T2", "", TransactionType.income⟩ : BudgetTransaction).tag
      = "T2" :=
  ⟨(claim_C4 cfgVendor ⟨[], []⟩ (mkTx "OK" "5" "C" "D" "x") ⟨"T2", some "P"⟩ "T"
      ⟨"o", "x", PyFloat.num 5, "P", "T2", "", TransactionType.income⟩
      (by decide) (by decide)).1,
   (claim_C4 cfgVendor ⟨[], []⟩ (mkTx "OK" "5" "C" "D" "x") ⟨"T2", some "P"⟩ "T"
      ⟨"o", "x", PyFloat.num 5, "P", "T2", "", TransactionType.income⟩
      (by decide) (by decide)).2 (by decide)⟩

/-- C5 (amended): within one `convert` call the unresolved list never holds
two entries with the same `(kind, key)` pair; and every transaction that
reaches the unknown-recording step (kept by all guards, no vendor override,
category unmapped) with a nonempty category yields exactly one Category
entry for that category. -/
theorem claim_C5 :
    ∀ (cfg : ConfigManager) (st : ConvState) (txs : List BankTransaction),
      ((convert st cfg txs).1.2).Pairwise (fun u v => mapping_key u ≠ mapping_key v) ∧
      ∀ tx ∈ txs, reaches_unknown cfg tx → tx.category ≠ "" →
        ((convert st cfg txs).1.2).countP
          (fun u => decide (mapping_key u = ("category", tx.category))) = 1 := by
  intro cfg st txs
  rw [convert_unknowns]
  constructor
  · exact dedupFirst_pairwise _ _
  · intro tx hmem hr hne
    apply dedupFirst_countP_one
    · simp
    · exact ⟨cat_entry tx.category, cat_entry_mem_stream cfg txs tx hmem hr hne, rfl⟩

/-- C5 counterexample: two kept transactions share the unmapped nonempty
category `C`, but because their description has a vendor override the
unknown-recording step is never reached, so the unresolved list holds no
Category entry for `C` at all — not exactly one, as the claim states. -/
theorem claim_C5_counterexample :
    ("C" : String) ≠ "" ∧
    List.lookup "C" cfgVendorOnly.category_mappings = none ∧
    (convert ⟨[], []⟩ cfgVendorOnly
        [mkTx "OK" "5" "C" "D" "x", mkTx "OK" "5" "C" "D" "x"]).1.1 ≠ [] ∧
    (convert ⟨[], []⟩ cfgVendorOnly
        [mkTx "OK" "5" "C" "D" "x", mkTx "OK" "5" "C" "D" "x"]).1.2 = [] := by
  refine ⟨by decide, by decide, by decide, by decide⟩

/-- C5 witness: a concrete reaching transaction yields exactly one Category
entry. -/
theorem claim_C5_witness :
    ((convert ⟨[], []⟩ cfgEmpty [mkTx "OK" "5" "c" "d" "x"]).1.2).countP
      (fun u => decide (mapping_key u = ("category", "c"))) = 1 :=
  (claim_C5 cfgEmpty ⟨[], []⟩ [mkTx "OK" "5" "c" "d" "x"]).2
    (mkTx "OK" "5" "c" "d" "x") (by decide) (by decide) (by decide)

/-- C6 (confirmed): `convert` resets the per-call duplicate-suppression
state at the start of every call, so its result does not depend on the
instance state left by previous calls: two calls with the same transaction
list and snapshot return identical (normalized, unresolved) pairs. -/
theorem claim_C6 :
    ∀ (cfg : ConfigManager) (txs : List BankTransaction) (s1 s2 : ConvState),
      (convert s1 cfg txs).1 = (convert s2 cfg txs).1 ∧
      (convert ((convert s1 cfg txs).2) cfg txs).1 = (convert s1 cfg txs).1 :=
  fun _ _ _ _ => ⟨rfl, rfl⟩

/-- C9 (confirmed): `parse_amount` is a total function; the empty string
parses to `0`, and any input whose cleaned form (quotes stripped, comma
replaced by period, spaces and non-breaking spaces removed) is rejected by
`float(...)` parses to `0` instead of raising. -/
theorem claim_C9 :
    ∀ s : String,
      parse_amount "" = PyFloat.num 0 ∧
      (pyFloatOfChars (clean_amount s) = none → parse_amount s = PyFloat.num 0) := by
  intro s
  refine ⟨rfl, ?_⟩
  intro h
  unfold parse_amount
  split_ifs with h0
  · rfl
  · simp only [h]

/-- C9 witness: the malformed amount string `abc` is rejected by the float
grammar and parses to `0`. -/
theorem claim_C9_witness :
    pyFloatOfChars (clean_amount "abc") = none ∧ parse_amount "abc" = PyFloat.num 0 :=
  ⟨by decide, (claim_C9 "abc").2 (by decide)⟩

/-- C10 (confirmed): the unresolved list returned by `convert` is exactly
the first-occurrence deduplication of the stream of would-be unknown
entries taken in processing order, where each reaching transaction
contributes its Category entry before its transfer Vendor entry — i.e. the
list is ordered by first encounter. -/
theorem claim_C10 :
    ∀ (st : ConvState) (cfg : ConfigManager) (txs : List BankTransaction),
      (convert st cfg txs).1.2 = dedupFirst (unknown_stream cfg txs) [] :=
  fun st cfg txs => convert_unknowns st cfg txs

/-- The skip type arises, among amounts comparing unequal to zero, exactly
for a NaN amount whose category is not an income category. -/
theorem determine_type_skip_iff (cfg : ConfigManager) (a : PyFloat) (c : String)
    (h0 : a.eqZero = false) :
    determine_type cfg a c = TransactionType.skip ↔
      (a = PyFloat.nan ∧ c ∉ cfg.income_categories) := by
  unfold determine_type
  by_cases hc : c ∈ cfg.income_categories
  · rw [if_pos hc]; simp [hc]
  · rw [if_neg hc]
    cases a with
    | num q =>
      have hq : q ≠ 0 := by
        intro he
        rw [he] at h0
        exact absurd h0 (by simp [PyFloat.eqZero])
      rcases lt_or_gt_of_ne hq with h | h
      · have hng : ¬ (0 < q) := not_lt.mpr (le_of_lt h)
        simp [PyFloat.gtZero, PyFloat.ltZero, hng, h]
      · simp [PyFloat.gtZero, h]
    | inf => simp [PyFloat.gtZero]
    | ninf => simp [PyFloat.gtZero, PyFloat.ltZero]
    | nan => simp [PyFloat.gtZero, PyFloat.ltZero, hc]

/-- C2 (amended): for a transaction that reaches the type-determination step
(status OK, not skip-listed, parsed amount comparing unequal to zero),
`_determine_type` returns `skip` exactly when the parsed amount is NaN and
the category is not an income category; in particular, whenever the parsed
amount is not NaN, the skip-drop branch of `_convert_single` is unreachable
and the transaction is emitted. -/
theorem claim_C2 :
    ∀ (cfg : ConfigManager) (st : ConvState) (tx : BankTransaction),
      tx.status = "OK" →
      tx.description ∉ cfg.skip_descriptions →
      (parse_amount tx.amount).eqZero = false →
      (determine_type cfg (parse_amount tx.amount) tx.category = TransactionType.skip ↔
        (parse_amount tx.amount = PyFloat.nan ∧ tx.category ∉ cfg.income_categories)) ∧
      (parse_amount tx.amount ≠ PyFloat.nan →
        determine_type cfg (parse_amount tx.amount) tx.category ≠ TransactionType.skip ∧
        (convert_single cfg st tx).2.isSome = true) := by
  intro cfg st tx h1 h2 h3
  refine ⟨determine_type_skip_iff cfg _ _ h3, ?_⟩
  intro hn
  have hns : determine_type cfg (parse_amount tx.amount) tx.category ≠ TransactionType.skip :=
    fun he => hn ((determine_type_skip_iff cfg _ _ h3).mp he).1
  refine ⟨hns, ?_⟩
  unfold convert_single
  rw [if_neg (by simp [h1] : ¬ tx.status ≠ "OK"), if_neg h2,
      if_neg (by rw [h3]; simp : ¬ (parse_amount tx.amount).eqZero = true), if_neg hns]
  rfl

/-- C2 counterexample: the amount string `nan` parses to NaN, which compares
unequal to zero, yet `_determine_type` returns `skip` and the transaction is
dropped through the skip branch of `_convert_single` — the branch the claim
calls unreachable. -/
theorem claim_C2_counterexample :
    (mkTx "OK" "nan" "c" "d" "x").status = "OK" ∧
    (mkTx "OK" "nan" "c" "d" "x").description ∉ cfgEmpty.skip_descriptions ∧
    (parse_amount "nan").eqZero = false ∧
    determine_type cfgEmpty (parse_amount "nan") "c" = TransactionType.skip ∧
    (convert_single cfgEmpty ⟨[], []⟩ (mkTx "OK" "nan" "c" "d" "x")).2 = none := by
  refine ⟨rfl, by decide, by decide, by decide, by decide⟩

/-- C2 witness: a concrete kept transaction with a non-NaN amount. -/
theorem claim_C2_witness :
    determine_type cfgEmpty (parse_amount "5") "c" ≠ TransactionType.skip ∧
    (convert_single cfgEmpty ⟨[], []⟩ (mkTx "OK" "5" "c" "d" "x")).2.isSome = true :=
  (claim_C2 cfgEmpty ⟨[], []⟩ (mkTx "OK" "5" "c" "d" "x") rfl (by decide) (by decide)).2
    (by decide)

/-- The normalized rows returned by `convert`. -/
theorem convert_results (st : ConvState) (cfg : ConfigManager) (txs : List BankTransaction) :
    (convert st cfg txs).1.1 = txs.filterMap (convert_single_result cfg) := by
  show (convertGo cfg ⟨[], []⟩ txs).2 = _
  exact convertGo_results cfg txs _

/-- An emitted row comes from an amount comparing unequal to zero, and its
amount is the absolute value of the parsed amount. -/
theorem convert_single_result_facts (cfg : ConfigManager) (tx : BankTransaction)
    (b : BudgetTransaction) (h : convert_single_result cfg tx = some b) :
    (parse_amount tx.amount).eqZero = false ∧ b.amount = (parse_amount tx.amount).pabs := by
  unfold convert_single_result at h
  split_ifs at h with h1 h2 h3 h4
  have hb := (Option.some.inj h).symm
  subst hb
  constructor
  · revert h3; cases (parse_amount tx.amount).eqZero <;> simp
  · rfl

/-- The absolute value of a non-NaN amount comparing unequal to zero is
strictly positive. -/
theorem pabs_gtZero (a : PyFloat) (h0 : a.eqZero = false) (hn : a.pabs ≠ PyFloat.nan) :
    (a.pabs).gtZero = true := by
  cases a with
  | num q =>
    have hq : q ≠ 0 := of_decide_eq_false h0
    show decide (0 < |q|) = true
    simpa [abs_pos] using hq
  | inf => rfl
  | ninf => rfl
  | nan => exact absurd rfl hn

/-- A zero-parsing transaction is dropped. -/
theorem convert_single_result_zero (cfg : ConfigManager) (tx : BankTransaction)
    (h : (parse_amount tx.amount).eqZero = true) :
    convert_single_result cfg tx = none := by
  unfold convert_single_result
  split_ifs with h1 h2 <;> rfl

/-- C3 (amended): every row in the output of `convert` comes from a raw
transaction whose parsed amount compares unequal to zero (so zero-amount
rows never appear), carries the absolute value of that parsed amount, and
is strictly positive whenever it is not NaN; every zero-parsing raw
transaction is dropped. -/
theorem claim_C3 :
    ∀ (cfg : ConfigManager) (st : ConvState) (txs : List BankTransaction),
      (∀ b ∈ (convert st cfg txs).1.1,
        ∃ tx ∈ txs,
          convert_single_result cfg tx = some b ∧
          (parse_amount tx.amount).eqZero = false ∧
          b.amount = (parse_amount tx.amount).pabs ∧
          (b.amount ≠ PyFloat.nan → b.amount.gtZero = true)) ∧
      (∀ tx ∈ txs, (parse_amount tx.amount).eqZero = true →
        convert_single_result cfg tx = none) := by
  intro cfg st txs
  constructor
  · intro b hb
    rw [convert_results] at hb
    rcases List.mem_filterMap.mp hb with ⟨tx, htx, hs⟩
    obtain ⟨hz, ha⟩ := convert_single_result_facts cfg tx b hs
    refine ⟨tx, htx, hs, hz, ha, ?_⟩
    intro hnan
    rw [ha] at hnan ⊢
    exact pabs_gtZero _ hz hnan
  · intro tx htx hz
    exact convert_single_result_zero cfg tx hz

/-- C3 counterexample: with `Зарплата` an income category and the amount
string `nan`, `convert` emits a row whose amount is NaN, which is not
strictly positive. -/
theorem claim_C3_counterexample :
    (convert ⟨[], []⟩ cfgIncome [mkTx "OK" "nan" "Зарплата" "D" "01.01.2025"]).1.1 =
      [⟨"o", "01.01.2025", PyFloat.nan, "D", "Неизвестно", "", TransactionType.income⟩] ∧
    PyFloat.gtZero PyFloat.nan = false := by
  refine ⟨by decide, rfl⟩

/-- A concrete emitted row used by the C3 witness. -/
def bFive : BudgetTransaction :=
  ⟨"o", "x", PyFloat.num 5, "d", "Неизвестно", "", TransactionType.income⟩

/-- C3 witness: the amended theorem applied to a concrete one-row input. -/
theorem claim_C3_witness :
    ∃ tx ∈ [mkTx "OK" "5" "c" "d" "x"],
      convert_single_result cfgEmpty tx = some bFive ∧
      (parse_amount tx.amount).eqZero = false ∧
      bFive.amount = (parse_amount tx.amount).pabs ∧
      (bFive.amount ≠ PyFloat.nan → bFive.amount.gtZero = true) :=
  (claim_C3 cfgEmpty ⟨[], []⟩ [mkTx "OK" "5" "c" "d" "x"]).1 bFive (by decide)

/-- Lexicographic date keys are totally ordered. -/
theorem keyLE_total (a b : Int × Int × Int) : keyLE a b = true ∨ keyLE b a = true := by
  simp only [keyLE, decide_eq_true_eq]
  omega

/-- Lexicographic date keys order transitively. -/
theorem keyLE_trans (a b c : Int × Int × Int) :
    keyLE a b = true → keyLE b c = true → keyLE a c = true := by
  simp only [keyLE, decide_eq_true_eq]
  omega

instance : IsTotal BudgetTransaction byDateLE :=
  ⟨fun a b => keyLE_total _ _⟩

instance : IsTrans BudgetTransaction byDateLE :=
  ⟨fun a b c h1 h2 => keyLE_trans _ _ _ h1 h2⟩

/-- C7 (amended): each output section is sorted ascending by the structural
`(year, month, day)` key, the sorted section is a permutation of the
bucket, and every date string that does not parse as three dot-separated
`int(...)` parts receives the key `(0,0,0)` — hence precedes every
transaction whose key is lexicographically greater, though a parseable date
with a key below `(0,0,0)` (e.g. a negative year) can precede it. -/
theorem claim_C7 :
    (∀ txs : List BudgetTransaction,
      List.Sorted byDateLE (sort_by_date (income_bucket txs)) ∧
      (sort_by_date (income_bucket txs)).Perm (income_bucket txs) ∧
      List.Sorted byDateLE (sort_by_date (expense_bucket txs)) ∧
      (sort_by_date (expense_bucket txs)).Perm (expense_bucket txs)) ∧
    (∀ s : String, parses_as_three s = false → parse_date_for_sort s = (0, 0, 0)) := by
  constructor
  · intro txs
    exact ⟨List.sorted_insertionSort byDateLE _, List.perm_insertionSort byDateLE _,
           List.sorted_insertionSort byDateLE _, List.perm_insertionSort byDateLE _⟩
  · intro s h
    unfold parse_date_for_sort
    split_ifs with h0
    · rfl
    · unfold parses_as_three at h
      cases hL : splitOnChar '.' s.data with
      | nil => simp only [hL]
      | cons p1 t1 =>
        cases t1 with
        | nil => simp only [hL]
        | cons p2 t2 =>
          cases t2 with
          | nil => simp only [hL]
          | cons p3 t3 =>
            cases t3 with
            | cons p4 t4 => simp only [hL]
            | nil =>
              rw [hL] at h
              cases hy : pyIntOfChars p3 with
              | none => simp [hL, hy]
              | some yi =>
                cases hm : pyIntOfChars p2 with
                | none => simp [hL, hy, hm]
                | some mi =>
                  cases hd : pyIntOfChars p1 with
                  | none => simp [hL, hy, hm, hd]
                  | some di => simp [hy, hm, hd] at h

/-- C7 counterexample: the unparseable date `garbage` keys to `(0,0,0)`,
but the parseable date `01.01.-1` keys to `(-1,1,1)` and sorts before it,
so the failing-date transaction is not at the front of its bucket. -/
theorem claim_C7_counterexample :
    parses_as_three bGar.date = false ∧
    parses_as_three bNeg.date = true ∧
    parse_date_for_sort bGar.date = (0, 0, 0) ∧
    parse_date_for_sort bNeg.date = (-1, 1, 1) ∧
    sort_by_date (expense_bucket [bGar, bNeg]) = [bNeg, bGar] := by
  refine ⟨by decide, by decide, by decide, by decide, by decide⟩

/-- C7 witness: the sortedness statement at a concrete bucket and the
`(0,0,0)` key at a concrete failing date string. -/
theorem claim_C7_witness :
    List.Sorted byDateLE (sort_by_date (expense_bucket [bGar, bNeg])) ∧
    parse_date_for_sort "garbage" = (0, 0, 0) :=
  ⟨(claim_C7.1 [bGar, bNeg]).2.2.1, claim_C7.2 "garbage" (by decide)⟩

/-- The character for a single decimal digit is a digit character. -/
theorem digitCharOf_isDigit (n : Nat) (h : n < 10) : (digitCharOf n).isDigit = true := by
  interval_cases n <;> decide

/-- All characters produced by the digit accumulator are digits. -/
theorem natCharsAux_digits :
    ∀ (fuel n : Nat) (acc : List Char), (∀ c ∈ acc, c.isDigit = true) →
      ∀ c ∈ natCharsAux fuel n acc, c.isDigit = true := by
  intro fuel
  induction fuel with
  | zero => intro n acc hacc c hc; exact hacc c hc
  | succ f ih =>
    intro n acc hacc c hc
    simp only [natCharsAux] at hc
    split_ifs at hc with h10
    · rcases List.mem_cons.mp hc with h | h
      · rw [h]; exact digitCharOf_isDigit n h10
      · exact hacc c h
    · refine ih (n / 10) _ ?_ c hc
      intro x hx
      rcases List.mem_cons.mp hx with h | h
      · rw [h]; exact digitCharOf_isDigit _ (Nat.mod_lt _ (by norm_num))
      · exact hacc x h

/-- The decimal representation of a natural number is all digits. -/
theorem natChars_digits (n : Nat) : ∀ c ∈ natChars n, c.isDigit = true :=
  natCharsAux_digits (n + 1) n [] (by simp)

/-- Truncation of a non-negative rational is non-negative. -/
theorem pyTrunc_nonneg (q : ℚ) (h : 0 ≤ q) : 0 ≤ pyTrunc q := by
  unfold pyTrunc
  rw [if_pos (Rat.num_nonneg.mpr h)]
  exact Int.natCast_nonneg _

/-- A digit character is not the decimal dot. -/
theorem digit_beq_dot_false {c : Char} (h : c.isDigit = true) : (c == '.') = false := by
  by_cases hc : c = '.'
  · subst hc; exact absurd h (by decide)
  · simp only [beq_eq_false_iff_ne, ne_eq]; exact hc

/-- `replaceChar` distributes over append. -/
theorem replaceChar_append (a b : Char) (l1 l2 : List Char) :
    replaceChar a b (l1 ++ l2) = replaceChar a b l1 ++ replaceChar a b l2 :=
  List.map_append _ _ _

/-- Replacing the dot leaves an all-digits list unchanged. -/
theorem replaceChar_digits (l : List Char) (h : ∀ c ∈ l, c.isDigit = true) :
    replaceChar '.' ',' l = l := by
  induction l with
  | nil => rfl
  | cons c rest ih =>
    unfold replaceChar
    rw [List.map_cons]
    rw [digit_beq_dot_false (h c (List.mem_cons_self _ _))]
    simp only [if_false, Bool.false_eq_true]
    rw [show List.map (fun x => if x == '.' then ',' else x) rest = replaceChar '.' ',' rest from rfl,
        ih (fun x hx => h x (List.mem_cons_of_mem _ hx))]

/-- C8 (confirmed): for every non-negative amount, the formatter yields the
bare decimal integer string when the fractional part is exactly zero
(`amount == int(amount)`), and otherwise an all-digits integer part
followed by a comma and exactly two digit characters; in particular
`1000.0` formats as `1000` and `1234.5` as `1234,50`. -/
theorem claim_C8 :
    format_amount 1000 = "1000" ∧
    format_amount (1234.5 : ℚ) = "1234,50" ∧
    ∀ q : ℚ, 0 ≤ q →
      (q = ((pyTrunc q : Int) : ℚ) →
        format_amount q = String.mk (natChars (pyTrunc q).toNat) ∧
        ∀ c ∈ (format_amount q).data, c.isDigit = true) ∧
      (q ≠ ((pyTrunc q : Int) : ℚ) →
        ∃ pre d1 d2, (format_amount q).data = pre ++ [',', d1, d2] ∧
          (∀ c ∈ pre, c.isDigit = true) ∧ d1.isDigit = true ∧ d2.isDigit = true) := by
  refine ⟨by decide, ?_, ?_⟩
  · have h : (1234.5 : ℚ) = mkRat 2469 2 := by norm_num [Rat.mkRat_eq_div]
    rw [h]; decide
  · intro q hq
    constructor
    · intro hw
      unfold format_amount
      rw [if_pos hw]
      have h0 : ¬ pyTrunc q < 0 := not_lt.mpr (pyTrunc_nonneg q hq)
      unfold intChars
      rw [if_neg h0]
      exact ⟨rfl, fun c hc => natChars_digits _ c hc⟩
    · intro hnw
      unfold format_amount
      rw [if_neg hnw]
      have hql : ¬ q < 0 := not_lt.mpr hq
      unfold fixed2Chars
      rw [if_neg hql]
      refine ⟨natChars ((round_cents q).natAbs / 100),
              digitCharOf ((round_cents q).natAbs / 10 % 10),
              digitCharOf ((round_cents q).natAbs % 10), ?_, ?_, ?_, ?_⟩
      · show replaceChar '.' ','
          ([] ++ natChars ((round_cents q).natAbs / 100) ++
            '.' :: digitCharOf ((round_cents q).natAbs / 10 % 10) ::
              [digitCharOf ((round_cents q).natAbs % 10)]) = _
        rw [List.nil_append, replaceChar_append,
            replaceChar_digits _ (natChars_digits _)]
        have hd1 : (digitCharOf ((round_cents q).natAbs / 10 % 10) == '.') = false :=
          digit_beq_dot_false (digitCharOf_isDigit _ (Nat.mod_lt _ (by norm_num)))
        have hd2 : (digitCharOf ((round_cents q).natAbs % 10) == '.') = false :=
          digit_beq_dot_false (digitCharOf_isDigit _ (Nat.mod_lt _ (by norm_num)))
        simp [replaceChar, hd1, hd2]
        exact ⟨fun h => absurd h (beq_eq_false_iff_ne.mp hd1),
               fun h => absurd h (beq_eq_false_iff_ne.mp hd2)⟩
      · exact natChars_digits _
      · exact digitCharOf_isDigit _ (Nat.mod_lt _ (by norm_num))
      · exact digitCharOf_isDigit _ (Nat.mod_lt _ (by norm_num))

/-- C8 witness: the general statement applied at the whole amount `7` and
the fractional amount `4.5`. -/
theorem claim_C8_witness :
    (format_amount 7 = String.mk (natChars (pyTrunc 7).toNat)) ∧
    (∃ pre d1 d2, (format_amount (mkRat 9 2)).data = pre ++ [',', d1, d2] ∧
      (∀ c ∈ pre, c.isDigit = true) ∧ d1.isDigit = true ∧ d2.isDigit = true) :=
  ⟨((claim_C8.2.2 7 (by norm_num)).1 (by decide)).1,
   (claim_C8.2.2 (mkRat 9 2) (by decide)).2 (by decide)⟩
